import Mathlib

/-!
Verification of the STIX 2 property validation layer (`stix2/properties.py`).

Python strings are modelled as `List Char`; a raised `ValueError` is modelled
as `Except.error` carrying the message; Python functions that are pure become
Lean functions.  External library calls (`dateutil.parser.parse`,
`uuid.uuid4`) are modelled as oracles: the input type carries the parse
outcome, and a fresh UUID is an explicit argument.
-/

namespace Stix2

instance {ε α : Type} [DecidableEq ε] [DecidableEq α] : DecidableEq (Except ε α) :=
  fun x y =>
    match x, y with
    | .ok a, .ok b => if h : a = b then .isTrue (by rw [h]) else .isFalse (by simp [h])
    | .error a, .error b => if h : a = b then .isTrue (by rw [h]) else .isFalse (by simp [h])
    | .ok _, .error _ => .isFalse (by simp)
    | .error _, .ok _ => .isFalse (by simp)

/-- The single-quote character (used inside error messages such as
`must equal '...'`). -/
def sq : String := String.mk [Char.ofNat 39]

/-- The two-character separator `--` used by STIX identifiers. -/
def dd : List Char := ['-', '-']

/-- Python `s.startswith(p)`. -/
def pyStartswith : List Char → List Char → Bool
  | _, [] => true
  | [], _ :: _ => false
  | c :: cs, q :: qs => c = q && pyStartswith cs qs

/-- Python `s.split(sep, 1)` restricted to the information the code uses:
`some (before, after)` splits at the first occurrence of `sep`, `none` means
`sep` does not occur (so `split` would return a one-element list). -/
def splitOnce (sep : List Char) : List Char → Option (List Char × List Char)
  | [] => if sep = [] then some ([], []) else none
  | c :: cs =>
    if pyStartswith (c :: cs) sep then some ([], (c :: cs).drop sep.length)
    else (splitOnce sep cs).map (fun p => (c :: p.1, p.2))

/-- Fuel-indexed worker for `pyReplace` (structural recursion so that the
kernel can evaluate it). -/
def pyReplaceAux (pat rep : List Char) : Nat → List Char → List Char
  | _, [] => []
  | 0, s => s
  | fuel + 1, c :: cs =>
    if pat ≠ [] && pyStartswith (c :: cs) pat then
      rep ++ pyReplaceAux pat rep fuel ((c :: cs).drop pat.length)
    else c :: pyReplaceAux pat rep fuel cs

/-- Python `s.replace(pat, rep)` (leftmost, non-overlapping, for a non-empty
pattern; the code only uses non-empty patterns). -/
def pyReplace (pat rep s : List Char) : List Char :=
  pyReplaceAux pat rep s.length s

/-- Python `s.strip(chars)`: remove leading and trailing characters that
satisfy `p` (the char-set argument given as a membership predicate). -/
def pyStrip2 (p : Char → Bool) (s : List Char) : List Char :=
  ((s.dropWhile p).reverse.dropWhile p).reverse

/-- Membership in the `strip` set `'{}'` (`{` is `Char.ofNat 123`, `}` is
`Char.ofNat 125`). -/
def isBraceCh (c : Char) : Bool := c = Char.ofNat 123 || c = Char.ofNat 125

/-- Python `s.split(c)` for a one-character separator (always returns a
non-empty list of parts). -/
def splitOnChar (c : Char) : List Char → List (List Char)
  | [] => [[]]
  | x :: xs =>
    if x = c then [] :: splitOnChar c xs
    else
      match splitOnChar c xs with
      | [] => [[x]]
      | p :: ps => (x :: p) :: ps

/-- Join parts with a one-character separator (inverse of `splitOnChar`). -/
def joinWith (c : Char) : List (List Char) → List Char
  | [] => []
  | [p] => p
  | p :: ps => p ++ c :: joinWith c ps

/-! ## BooleanProperty -/

/-- The Python values the boolean claims range over.  `pyfloat` carries an
exact rational (enough to model the float literals `1.0`/`0.0`, whose Python
`==` comparison with the ints `1`/`0` is exact). -/
inductive PyVal where
  | pybool (b : Bool)
  | pystr (s : List Char)
  | pyint (n : Int)
  | pyfloat (q : Rat)
deriving DecidableEq

/-- Python `str.lower` (ASCII case mapping; the inputs in the claims are
ASCII). -/
def pyLower (s : List Char) : List Char := s.map Char.toLower

/-- `BooleanProperty.clean`: native bools pass through; strings are
lower-cased and matched against `true/t` and `false/f` (a non-matching string
raises `ValueError` directly, never reaching the numeric branch); values
without a `.lower` attribute (ints, floats) hit the `AttributeError` handler
which compares them with `== 1` and `== 0`. -/
def boolClean : PyVal → Except String Bool
  | .pybool b => .ok b
  | .pystr s =>
    if pyLower s = "true".data || pyLower s = "t".data then .ok true
    else if pyLower s = "false".data || pyLower s = "f".data then .ok false
    else .error ("not a coercible boolean value.")
  | .pyint n =>
    if n = 1 then .ok true
    else if n = 0 then .ok false
    else .error ("not a coercible boolean value.")
  | .pyfloat q =>
    if q = 1 then .ok true
    else if q = 0 then .ok false
    else .error ("not a coercible boolean value.")

/-- `BooleanProperty.validate`: re-frames any `ValueError` from `clean` as
`must be a boolean value.`. -/
def boolValidate (v : PyVal) : Except String Bool :=
  match boolClean v with
  | .ok b => .ok b
  | .error _ => .error ("must be a boolean value.")

/-! ## TimestampProperty -/

/-- A timezone object, identified by its name and a fixed UTC offset in
minutes.  (`pytz` zone objects are truthy, so `if parsed.tzinfo:` is simply a
test for presence.)  The offset is only used to model
`astimezone(pytz.utc)`'s instant-preserving conversion. -/
structure Tz where
  name : String
  offsetMin : Int
deriving DecidableEq

/-- `pytz.utc`. -/
def utcTz : Tz := ⟨"UTC", 0⟩

/-- `pytz.timezone("US/Eastern")` (offset value is representative; the claims
only inspect the zone's identity). -/
def easternTz : Tz := ⟨"US/Eastern", -300⟩

/-- A `datetime.datetime`: a naive wall-clock reading (minutes) plus an
optional attached timezone. -/
structure PyDatetime where
  wall : Int
  tz : Option Tz
deriving DecidableEq

/-- A `datetime.date` (no time component, no timezone). -/
structure PyDate where
  day : Int
deriving DecidableEq

/-- The inputs `TimestampProperty.validate` discriminates between.  String
inputs carry the outcome of the external `dateutil.parser.parse` oracle:
`strParsed` when parsing yields a datetime, `strBad` when it raises
`ValueError` (dateutil's own error, which the code does NOT catch — it only
catches `TypeError`), and `nonTemporal` for non-date/non-string values, for
which `parser.parse` raises `TypeError`. -/
inductive TsInput where
  | dtv (d : PyDatetime)
  | datev (d : PyDate)
  | strParsed (parsed : PyDatetime)
  | strBad
  | nonTemporal
deriving DecidableEq

/-- `datetime.astimezone(pytz.utc)`: same instant re-expressed in UTC. -/
def astimezoneUtc (d : PyDatetime) (z : Tz) : PyDatetime :=
  ⟨d.wall - z.offsetMin, some utcTz⟩

/-- `TimestampProperty.validate`:
* a `datetime` (`isinstance(value, dt.date)` and `hasattr(value, 'hour')`)
  is returned unchanged, whatever its timezone state;
* a date-only value is combined with midnight and gets
  `pytz.timezone('US/Eastern')` attached;
* otherwise the value is handed to `dateutil.parser.parse`; a `TypeError`
  becomes the friendly `ValueError`, an aware parse is converted with
  `astimezone(pytz.utc)`, a naive parse is labeled UTC via
  `pytz.utc.localize` (wall clock unchanged). -/
def tsValidate : TsInput → Except String PyDatetime
  | .dtv d => .ok d
  | .datev d => .ok ⟨1440 * d.day, some easternTz⟩
  | .strParsed p =>
    match p.tz with
    | some z => .ok (astimezoneUtc p z)
    | none => .ok ⟨p.wall, some utcTz⟩
  | .strBad => .error ("Unknown string format")
  | .nonTemporal =>
    .error ("must be a datetime object, date object, or timestamp string in a recognizable format.")

/-! ## Property base contract (`Property.__init__` / `_default_validate`) -/

/-- The observable pieces of a constructed `Property`: its `validate` bound
method and its `default` attribute (`none` when the instance has no
`default`). -/
structure PropModel (V : Type) where
  required : Bool
  validate : V → Except String V
  defaultFn : Option (Unit → V)

/-- `Property._default_validate`: exact-match comparison against the fixed
value, with the `must equal '...'.` message (`reprV` plays the role of
Python's string formatting of the fixed value). -/
def pyDefaultValidate {V : Type} [DecidableEq V] (reprV : V → String) (f : V)
    (v : V) : Except String V :=
  if v = f then .ok v else .error ("must equal " ++ sq ++ reprV f ++ sq ++ ".")

/-- `Property.validate` as inherited from the base class: call `clean` and
pass a `NotImplementedError` (no clean supplied) through silently. -/
def baseValidate {V : Type} (cleanOv : Option (V → Except String V)) (v : V) :
    Except String V :=
  match cleanOv with
  | some c => c v
  | none => .ok v

/-- `Property.__init__(required, fixed, clean, default, type)`: if `fixed` is
truthy, `validate` is rebound to `_default_validate` and `default` to a
closure returning the fixed value; afterwards a truthy `clean` argument is
stored, and a truthy `default` argument overwrites `default` (including the
one just installed by `fixed`). -/
def mkProperty {V : Type} [DecidableEq V] (truthy : V → Bool) (reprV : V → String)
    (required : Bool) (fixed : Option V)
    (cleanOv : Option (V → Except String V))
    (defaultOv : Option (Unit → V)) : PropModel V :=
  let fixedVal : Option V :=
    match fixed with
    | some f => if truthy f then some f else none
    | none => none
  { required := required
    validate :=
      match fixedVal with
      | some f => pyDefaultValidate reprV f
      | none => baseValidate cleanOv
    defaultFn :=
      match defaultOv with
      | some d => some d
      | none =>
        match fixedVal with
        | some f => some (fun _ => f)
        | none => none }

/-- CPython string truthiness, for `V = String`-valued properties. -/
def strTruthy (s : String) : Bool := !s.isEmpty

/-! ## ListProperty -/

/-- The element validator stored in `self.contained`, after
`ListProperty.__init__`'s resolution.  `validateFn = none` models a contained
value with no `validate` attribute (e.g. the builtin `str`), whose
`AttributeError` the code swallows; `isDict` models `type(valid) is dict`;
`callKw`/`callPos` model `self.contained(**valid)` / `self.contained(valid)`. -/
structure ElemValidator (V : Type) where
  validateFn : Option (V → Except String V)
  isDict : V → Bool
  callKw : V → V
  callPos : V → V

/-- The per-element loop of `ListProperty.validate`. -/
def listValidateAux {V : Type} (c : ElemValidator V) : List V → Except String (List V)
  | [] => .ok []
  | x :: xs => do
    let valid ←
      match c.validateFn with
      | some f => f x
      | none => .ok x
    let rest ← listValidateAux c xs
    .ok ((if c.isDict valid then c.callKw valid else c.callPos valid) :: rest)

/-- `ListProperty.validate`: `none` models a non-iterable input (for which
`iter(value)` raises `TypeError`); otherwise each element is validated and
re-wrapped, and an empty result is rejected. -/
def listValidate {V : Type} (c : ElemValidator V) (value : Option (List V)) :
    Except String (List V) :=
  match value with
  | none => .error ("must be an iterable.")
  | some xs =>
    match listValidateAux c xs with
    | .error e => .error e
    | .ok result =>
      if result.length < 1 then .error ("must not be empty.") else .ok result

/-- `ListProperty(StringProperty)`'s contained value: the constructor special
case stores the bare type `str` (`StringProperty().string_type`), which has
no `validate` attribute; `type(x) is dict` is false for strings; `str(x)`
returns a string argument unchanged. -/
def strContained : ElemValidator String :=
  { validateFn := none
    isDict := fun _ => false
    callKw := id
    callPos := id }

/-! ## uuid.UUID and IDProperty -/

/-- Hexadecimal digit (either case), as accepted by `int(s, 16)`. -/
def isHexCh (c : Char) : Bool :=
  ('0' ≤ c && c ≤ '9') || ('a' ≤ c && c ≤ 'f') || ('A' ≤ c && c ≤ 'F')

/-- Lowercase hexadecimal digit (what `str(uuid.uuid4())` emits). -/
def isLowerHexCh (c : Char) : Bool :=
  ('0' ≤ c && c ≤ '9') || ('a' ≤ c && c ≤ 'f')

/-- Modelled from the Python standard library: string acceptance of
`uuid.UUID(hex=s, version=4)`.  `uuid.UUID.__init__` rewrites the string with
`hex.replace('urn:', '').replace('uuid:', '').strip('{}').replace('-', '')`,
requires exactly 32 characters, and converts them with `int(s, 16)` (modelled
as 32 hex digits; Python's extra `int` literal leniency — underscores, sign,
`0x`, surrounding whitespace — is not modelled).  Crucially, the `version=4`
argument does NOT validate the version: it overwrites the version and variant
bits of the parsed value, so UUIDs of any version are accepted. -/
def pyUuidOk (s : List Char) : Bool :=
  let h1 := pyReplace ("urn:".data) [] s
  let h2 := pyReplace ("uuid:".data) [] h1
  let h3 := pyStrip2 isBraceCh h2
  let h4 := pyReplace ['-'] [] h3
  h4.length = 32 && h4.all isHexCh

/-- `IDProperty(type).validate`: check `value.startswith(type + "--")`, then
feed `value.split('--', 1)[1]` to `uuid.UUID(..., version=4)`; any exception
there (including the unreachable missing-separator case) becomes the
`version 4 UUID` error. -/
def idValidate (t v : List Char) : Except String (List Char) :=
  if !pyStartswith v (t ++ dd) then
    .error ("must start with " ++ sq ++ String.mk (t ++ dd) ++ sq ++ ".")
  else
    match splitOnce dd v with
    | some p =>
      if pyUuidOk p.2 then .ok v
      else .error ("must have a valid version 4 UUID after the prefix.")
    | none => .error ("must have a valid version 4 UUID after the prefix.")

/-- A fresh version-4 UUID as produced by `uuid.uuid4()`, represented by its
32 lowercase hex digits with the version nibble fixed to `4` and the variant
nibble in `8/9/a/b`. -/
structure Uuid4 where
  hex : List Char
  len32 : hex.length = 32
  allHex : hex.all isLowerHexCh = true
  ver4 : hex.getD 12 ' ' = '4'
  variantOk : hex.getD 16 ' ' = '8' ∨ hex.getD 16 ' ' = '9' ∨
      hex.getD 16 ' ' = 'a' ∨ hex.getD 16 ' ' = 'b'

/-- A concrete version-4 UUID (version nibble `4` at index 12, variant nibble
`8` at index 16), used to instantiate the `uuid.uuid4()` oracle on concrete
runs. -/
def uuid4Sample : Uuid4 :=
  ⟨"00000000000040008000000000000000".data, by decide, by decide, by decide,
    by decide⟩

/-- `str(uuid)`: canonical 8-4-4-4-12 hyphenated rendering. -/
def uuidRender (h : List Char) : List Char :=
  h.take 8 ++ '-' :: (h.drop 8).take 4 ++ '-' :: (h.drop 12).take 4
    ++ '-' :: (h.drop 16).take 4 ++ '-' :: h.drop 20

/-- `IDProperty(type).default()`: `type + "--" + str(uuid.uuid4())`, with the
freshly drawn UUID made explicit. -/
def idDefault (t : List Char) (u : Uuid4) : List Char :=
  t ++ dd ++ uuidRender u.hex

/-! ## ReferenceProperty and `REF_REGEX` -/

/-- `[a-z]`. -/
def isAzCh (c : Char) : Bool := 'a' ≤ c && c ≤ 'z'

/-- A run of exactly `n` hex digits. -/
def hexRun (n : Nat) (s : List Char) : Bool := s.length = n && s.all isHexCh

/-- The `[0-9a-fA-F]{8}(-[0-9a-fA-F]{4}){3}-[0-9a-fA-F]{12}` tail of
`REF_REGEX`: canonical hyphenated UUID shape (case-insensitive hex). -/
def uuidCanon (u : List Char) : Bool :=
  u.length = 36 && hexRun 8 (u.take 8) && u.getD 8 ' ' = '-'
    && hexRun 4 ((u.drop 9).take 4) && u.getD 13 ' ' = '-'
    && hexRun 4 ((u.drop 14).take 4) && u.getD 18 ' ' = '-'
    && hexRun 4 ((u.drop 19).take 4) && u.getD 23 ' ' = '-'
    && hexRun 12 (u.drop 24)

/-- The `[a-z][a-z-]+[a-z]` type-token part of `REF_REGEX`: at least three
characters, first and last a lowercase letter, interior lowercase or `-`. -/
def tokenOk (a : List Char) : Bool :=
  a.length ≥ 3 && isAzCh (a.getD 0 ' ') && isAzCh (a.getD (a.length - 1) ' ')
    && ((a.drop 1).dropLast.all fun c => isAzCh c || c = '-')

/-- The `^...$`-body of `REF_REGEX` applied to a whole string: since the UUID
tail of the pattern has fixed length 36, the literal `--` of any such match
sits exactly 38 characters from the end; the matcher checks that unique
decomposition. -/
def refBody (v : List Char) : Bool :=
  v.length ≥ 41 && tokenOk (v.take (v.length - 38))
    && ((v.drop (v.length - 38)).take 2 = dd)
    && uuidCanon (v.drop (v.length - 36))

/-- `REF_REGEX.match(v)`: Python's `$` (no `re.MULTILINE`) matches at the end
of the string or just before one newline at the very end, so the regex also
accepts any body-language string with a single trailing `\n` appended. -/
def refMatch (v : List Char) : Bool :=
  refBody v || (v.getLast? = some '\n' && refBody v.dropLast)

/-- The language of the `REF_REGEX` body, stated as the grammar the spec
describes: a lowercase-hyphen type token, the `--` separator, and a canonical
hyphenated-hex UUID. -/
def RefGrammar (v : List Char) : Prop :=
  ∃ a u, v = a ++ dd ++ u ∧ tokenOk a = true ∧ uuidCanon u = true

/-- The full language of `REF_REGEX.match`: the grammar, or a grammar string
with one trailing newline (Python `$` semantics). -/
def RefGrammarNL (v : List Char) : Prop :=
  RefGrammar v ∨ ∃ w, v = w ++ ['\n'] ∧ RefGrammar w

/-- The format branch of `ReferenceProperty.validate`. -/
def refCheckFormat (v : List Char) : Except String (List Char) :=
  if refMatch v then .ok v else .error ("must match <object-type>--<guid>.")

/-- `ReferenceProperty.validate` on an identifier string (the
`isinstance(value, _STIXBase)` extraction branch concerns already-built
objects and is outside this model): when a truthy target type is configured,
`value.startswith(self.type)` is required — note: the bare type, not
`type + "--"` — and then the value must match `REF_REGEX`. -/
def refValidate (ty : Option (List Char)) (v : List Char) : Except String (List Char) :=
  match ty with
  | some t =>
    if t.isEmpty then refCheckFormat v
    else if pyStartswith v t then refCheckFormat v
    else .error ("must start with " ++ sq ++ String.mk t ++ sq ++ ".")
  | none => refCheckFormat v

/-! ## SelectorProperty and `SELECTOR_REGEX` -/

/-- `[a-z0-9_-]`, the character class of selector tokens. -/
def isSelCh (c : Char) : Bool :=
  ('a' ≤ c && c ≤ 'z') || ('0' ≤ c && c ≤ '9') || c = '_' || c = '-'

/-- The `[a-z0-9_-]{3,250}` root segment. -/
def rootOk (r : List Char) : Bool :=
  3 ≤ r.length && r.length ≤ 250 && r.all isSelCh

/-- In a `str` pattern Python's `\d` matches every Unicode decimal digit
(category `Nd`), a set that depends on the interpreter's Unicode tables, so
the selector matcher takes the digit predicate `dig` as an explicit
parameter (like the other external oracles in this file).  `asciiDigit` is
the ASCII restriction of that predicate: Python's `\d` agrees with it on
every ASCII character, which covers all concrete inputs evaluated here. -/
def asciiDigit (c : Char) : Bool := c.isDigit

/-- Digits followed by a closing `]` (the `\d+\]` suffix of a bracket
segment), for the digit predicate `dig`. -/
def digitsClose (dig : Char → Bool) : List Char → Bool
  | [] => false
  | [c] => c = ']'
  | c :: cs => dig c && digitsClose dig cs

/-- A `\[\d+\]` bracketed-index segment. -/
def bracketOk (dig : Char → Bool) : List Char → Bool
  | o :: c :: rest => o = '[' && dig c && digitsClose dig (c :: rest)
  | _ => false

/-- A path segment after a dot: bracketed index or `[a-z0-9_-]{1,250}`. -/
def segOk (dig : Char → Bool) (s : List Char) : Bool :=
  bracketOk dig s || (1 ≤ s.length && s.length ≤ 250 && s.all isSelCh)

/-- The `^...$`-body of `SELECTOR_REGEX` applied to a whole string: since `.`
occurs in no segment (`\d` never matches `.`), the body language is exactly
"split on `.`: the first part is a root, every later part is a segment". -/
def selBody (dig : Char → Bool) (v : List Char) : Bool :=
  match splitOnChar '.' v with
  | [] => false
  | root :: segs => rootOk root && segs.all (segOk dig)

/-- `SELECTOR_REGEX.match(v)`: Python's `$` (no `re.MULTILINE`) matches at
the end of the string or just before one newline at the very end, so the
regex also accepts any body-language string with a single trailing `\n`
appended. -/
def selMatch (dig : Char → Bool) (v : List Char) : Bool :=
  selBody dig v || (v.getLast? = some '\n' && selBody dig v.dropLast)

/-- The language of the `SELECTOR_REGEX` body, stated as the grammar the
spec describes: a root segment followed by zero or more `.`-separated
segments. -/
def SelGrammar (dig : Char → Bool) (v : List Char) : Prop :=
  ∃ root segs, v = joinWith '.' (root :: segs) ∧ rootOk root = true ∧
    ∀ s ∈ segs, segOk dig s = true

/-- The full language of `SELECTOR_REGEX.match`: the grammar, or a grammar
string with one trailing newline (Python `$` semantics). -/
def SelGrammarNL (dig : Char → Bool) (v : List Char) : Prop :=
  SelGrammar dig v ∨ ∃ w, v = w ++ ['\n'] ∧ SelGrammar dig w

/-- `SelectorProperty.validate`. -/
def selValidate (dig : Char → Bool) (v : List Char) : Except String (List Char) :=
  if selMatch dig v then .ok v
  else .error ("values must adhere to selector syntax")

/-! ## Helper lemmas about the string primitives -/

theorem splitOnce_cons (sep : List Char) (c : Char) (cs : List Char) :
    splitOnce sep (c :: cs) =
      if pyStartswith (c :: cs) sep then some ([], (c :: cs).drop sep.length)
      else (splitOnce sep cs).map (fun p => (c :: p.1, p.2)) := rfl

theorem pyStartswith_append_left (a b : List Char) : pyStartswith (a ++ b) a = true := by
  induction a with
  | nil => cases b <;> simp [pyStartswith]
  | cons c cs ih => simp [pyStartswith, ih]

/-- Where the first `--` of `t ++ "--" ++ u` sits when `t` itself contains no
`--`: at the end of `t`, except that a trailing `-` of `t` absorbs one dash. -/
theorem splitOnce_dd_append (t u : List Char) (h : splitOnce dd t = none) :
    splitOnce dd (t ++ dd ++ u) =
      some (if t.getLast? = some '-' then (t.dropLast, '-' :: u) else (t, u)) := by
  induction t with
  | nil => simp [splitOnce, dd, pyStartswith]
  | cons c cs ih =>
    match cs, h with
    | [], h =>
      by_cases hc : c = '-'
      · subst hc
        simp [splitOnce, dd, pyStartswith]
      · simp [splitOnce, dd, pyStartswith, hc]
    | c2 :: cs', h =>
      rw [splitOnce_cons] at h
      by_cases h2 : pyStartswith (c :: c2 :: cs') dd
      · rw [if_pos h2] at h; exact absurd h (by simp)
      · rw [if_neg h2] at h
        have hrec : splitOnce dd (c2 :: cs') = none := by
          cases hr : splitOnce dd (c2 :: cs') with
          | none => rfl
          | some p => rw [hr] at h; simp at h
        have ih' := ih hrec
        have h2' : pyStartswith (c :: c2 :: (cs' ++ (dd ++ u))) dd = false := by
          simp only [dd, pyStartswith] at h2 ⊢
          simpa using h2
        simp only [List.cons_append, List.append_assoc] at ih' ⊢
        rw [splitOnce_cons, h2']
        simp only [Bool.false_eq_true, if_false, ih']
        rw [Option.map_some']
        by_cases hl : (c2 :: cs').getLast? = some '-'
        · have hl2 : (c :: c2 :: cs').getLast? = some '-' := by
            rw [List.getLast?_cons_cons]; exact hl
          rw [if_pos hl, if_pos hl2]
          simp [List.dropLast]
        · have hl2 : ¬ (c :: c2 :: cs').getLast? = some '-' := by
            rw [List.getLast?_cons_cons]; exact hl
          rw [if_neg hl, if_neg hl2]

theorem pyStartswith_mem {c : Char} : ∀ {s pat : List Char},
    pyStartswith s pat = true → c ∈ pat → c ∈ s := by
  intro s pat h hc
  induction pat generalizing s with
  | nil => exact absurd hc (List.not_mem_nil c)
  | cons q qs ih =>
    match s with
    | [] => simp [pyStartswith] at h
    | a :: as =>
      simp only [pyStartswith, Bool.and_eq_true, decide_eq_true_eq] at h
      rcases List.mem_cons.mp hc with rfl | htail
      · rw [← h.1]; exact List.mem_cons_self a as
      · exact List.mem_cons_of_mem a (ih h.2 htail)

theorem pyReplaceAux_id_of_not_mem {pat rep : List Char} {x : Char} (hx : x ∈ pat) :
    ∀ (fuel : Nat) (s : List Char), x ∉ s → pyReplaceAux pat rep fuel s = s := by
  intro fuel
  induction fuel with
  | zero => intro s _; cases s <;> rfl
  | succ n ih =>
    intro s hs
    match s with
    | [] => rfl
    | c :: cs =>
      have hsw : pyStartswith (c :: cs) pat = false := by
        cases hq : pyStartswith (c :: cs) pat with
        | false => rfl
        | true => exact absurd (pyStartswith_mem hq hx) hs
      have : (pat ≠ [] && pyStartswith (c :: cs) pat) = false := by
        rw [hsw, Bool.and_false]
      rw [pyReplaceAux, if_neg (by rw [this]; exact Bool.false_ne_true)]
      have hcs : x ∉ cs := fun hmem => hs (List.mem_cons_of_mem c hmem)
      rw [ih cs hcs]

theorem pyReplace_id_of_not_mem {pat rep s : List Char} {x : Char} (hx : x ∈ pat)
    (hs : x ∉ s) : pyReplace pat rep s = s :=
  pyReplaceAux_id_of_not_mem hx s.length s hs

theorem pyReplaceAux_dash_filter :
    ∀ (fuel : Nat) (s : List Char), s.length ≤ fuel →
      pyReplaceAux ['-'] [] fuel s = s.filter (fun c => c != '-') := by
  intro fuel
  induction fuel with
  | zero =>
    intro s hs
    have : s = [] := List.length_eq_zero.mp (Nat.le_zero.mp hs)
    subst this; rfl
  | succ n ih =>
    intro s hs
    match s with
    | [] => rfl
    | c :: cs =>
      have hlen : cs.length ≤ n := by simpa using hs
      by_cases hc : c = '-'
      · subst hc
        have hcond : (['-'] ≠ [] && pyStartswith ('-' :: cs) ['-']) = true := by
          simp [pyStartswith]
        rw [pyReplaceAux, if_pos (by rw [hcond])]
        have hdrop : List.drop (['-'] : List Char).length ('-' :: cs) = cs := rfl
        rw [hdrop, List.nil_append, ih cs hlen]
        simp [List.filter_cons]
      · have hcond : (['-'] ≠ [] && pyStartswith (c :: cs) ['-']) = false := by
          simp [pyStartswith, hc]
        rw [pyReplaceAux, if_neg (by rw [hcond]; exact Bool.false_ne_true)]
        rw [ih cs hlen]
        simp [List.filter_cons, hc]

theorem pyReplace_dash_filter (s : List Char) :
    pyReplace ['-'] [] s = s.filter (fun c => c != '-') :=
  pyReplaceAux_dash_filter s.length s (Nat.le_refl _)

theorem dropWhile_eq_self_of_false {p : Char → Bool} {s : List Char}
    (h : ∀ c ∈ s, p c = false) : s.dropWhile p = s := by
  cases s with
  | nil => rfl
  | cons c cs =>
    rw [List.dropWhile_cons, h c (List.mem_cons_self c cs)]
    simp

theorem pyStrip2_id {p : Char → Bool} {s : List Char}
    (h : ∀ c ∈ s, p c = false) : pyStrip2 p s = s := by
  unfold pyStrip2
  rw [dropWhile_eq_self_of_false h]
  rw [dropWhile_eq_self_of_false (fun c hc => h c (List.mem_reverse.mp hc))]
  exact List.reverse_reverse s


theorem uuidRender_subset (h : List Char) : uuidRender h ⊆ '-' :: h := by
  have hh : h ⊆ '-' :: h := fun x hx => List.mem_cons_of_mem _ hx
  have t1 : h.take 8 ⊆ '-' :: h := (List.take_subset _ _).trans hh
  have t2 : ∀ n : Nat, (h.drop n).take 4 ⊆ '-' :: h :=
    fun n => ((List.take_subset _ _).trans (List.drop_subset _ _)).trans hh
  have t3 : h.drop 20 ⊆ '-' :: h := (List.drop_subset _ _).trans hh
  simp only [uuidRender, List.append_subset, List.cons_subset]
  repeat' apply And.intro
  all_goals first
    | exact List.mem_cons_self _ _
    | exact t1
    | exact t2 _
    | exact t3

theorem renderChar (u : Uuid4) {c : Char} (hc : c ∈ uuidRender u.hex) :
    c = '-' ∨ isLowerHexCh c = true := by
  rcases List.mem_cons.mp (uuidRender_subset u.hex hc) with h | h
  · exact Or.inl h
  · exact Or.inr (List.all_eq_true.mp u.allHex c h)

theorem take_drop_recompose (l : List Char) :
    l.take 8 ++ ((l.drop 8).take 4 ++ ((l.drop 12).take 4 ++ ((l.drop 16).take 4 ++ l.drop 20))) = l := by
  have h8 := List.take_append_drop 8 l
  have h12 := List.take_append_drop 4 (l.drop 8)
  have h16 := List.take_append_drop 4 (l.drop 12)
  have h20 := List.take_append_drop 4 (l.drop 16)
  rw [List.drop_drop] at h12 h16 h20
  norm_num at h12 h16 h20
  rw [h20, h16, h12, h8]

theorem filter_uuidRender (u : Uuid4) :
    (uuidRender u.hex).filter (fun c => c != '-') = u.hex := by
  have hx : ∀ c ∈ u.hex, (c != '-') = true := by
    intro c hc
    have hl := List.all_eq_true.mp u.allHex c hc
    cases hq : c == '-' with
    | false => simp [bne, hq]
    | true =>
      have hce : c = '-' := by simpa using hq
      rw [hce] at hl; exact absurd hl (by decide)
  have f1 : (u.hex.take 8).filter (fun c => c != '-') = u.hex.take 8 :=
    List.filter_eq_self.mpr (fun c hc => hx c (List.take_subset _ _ hc))
  have f2 : ∀ n : Nat, ((u.hex.drop n).take 4).filter (fun c => c != '-') = (u.hex.drop n).take 4 :=
    fun n => List.filter_eq_self.mpr
      (fun c hc => hx c (List.drop_subset _ _ (List.take_subset _ _ hc)))
  have f3 : (u.hex.drop 20).filter (fun c => c != '-') = u.hex.drop 20 :=
    List.filter_eq_self.mpr (fun c hc => hx c (List.drop_subset _ _ hc))
  simp only [uuidRender, List.filter_append, List.filter_cons]
  norm_num
  rw [f1, f2 8, f2 12, f2 16, f3]
  exact take_drop_recompose u.hex


theorem lowerHex_imp_hex {c : Char} (h : isLowerHexCh c = true) : isHexCh c = true := by
  simp only [isLowerHexCh, isHexCh, Bool.or_eq_true, Bool.and_eq_true, decide_eq_true_eq] at h ⊢
  tauto

theorem pyUuidOk_of_chars (u : Uuid4) (s : List Char)
    (hs : ∀ c ∈ s, c = '-' ∨ isLowerHexCh c = true)
    (hfil : s.filter (fun c => c != '-') = u.hex) : pyUuidOk s = true := by
  have hcolon : (':' : Char) ∉ s := by
    intro hmem
    rcases hs _ hmem with h | h
    · exact absurd h (by decide)
    · exact absurd h (by decide)
  have h1 : pyReplace ("urn:".data) [] s = s :=
    pyReplace_id_of_not_mem (by decide) hcolon
  have h2 : pyReplace ("uuid:".data) [] s = s :=
    pyReplace_id_of_not_mem (by decide) hcolon
  have h3 : pyStrip2 isBraceCh s = s := by
    apply pyStrip2_id
    intro c hc
    rcases hs c hc with h | h
    · rw [h]; decide
    · cases hq : isBraceCh c with
      | false => rfl
      | true =>
        simp only [isBraceCh, Bool.or_eq_true, decide_eq_true_eq] at hq
        rcases hq with rfl | rfl
        · exact absurd h (by decide)
        · exact absurd h (by decide)
  unfold pyUuidOk
  simp only [h1, h2, h3, pyReplace_dash_filter, hfil]
  rw [u.len32]
  simp only [decide_True, Bool.true_and, List.all_eq_true]
  intro c hc
  exact lowerHex_imp_hex (List.all_eq_true.mp u.allHex c hc)

theorem pyUuidOk_uuidRender (u : Uuid4) : pyUuidOk (uuidRender u.hex) = true :=
  pyUuidOk_of_chars u _ (fun _ hc => renderChar u hc) (filter_uuidRender u)

theorem pyUuidOk_dash_uuidRender (u : Uuid4) : pyUuidOk ('-' :: uuidRender u.hex) = true := by
  apply pyUuidOk_of_chars u
  · intro c hc
    rcases List.mem_cons.mp hc with rfl | h
    · exact Or.inl rfl
    · exact renderChar u h
  · rw [List.filter_cons]
    norm_num
    exact filter_uuidRender u

theorem idValidate_idDefault (t : List Char) (u : Uuid4) (h : splitOnce dd t = none) :
    idValidate t (idDefault t u) = .ok (idDefault t u) := by
  unfold idValidate idDefault
  rw [pyStartswith_append_left (t ++ dd) (uuidRender u.hex)]
  rw [splitOnce_dd_append t (uuidRender u.hex) h]
  by_cases hl : t.getLast? = some '-'
  · rw [if_pos hl]
    simp only [Bool.not_true, Bool.false_eq_true, if_false]
    rw [pyUuidOk_dash_uuidRender u]
    simp
  · rw [if_neg hl]
    simp only [Bool.not_true, Bool.false_eq_true, if_false]
    rw [pyUuidOk_uuidRender u]
    simp


theorem splitOnChar_ne_nil (c : Char) (s : List Char) : splitOnChar c s ≠ [] := by
  cases s with
  | nil => simp [splitOnChar]
  | cons x xs =>
    rw [splitOnChar]
    by_cases hx : x = c
    · simp [hx]
    · rw [if_neg hx]
      cases splitOnChar c xs <;> simp

theorem joinWith_splitOnChar (c : Char) (s : List Char) :
    joinWith c (splitOnChar c s) = s := by
  induction s with
  | nil => rfl
  | cons x xs ih =>
    rw [splitOnChar]
    by_cases hx : x = c
    · rw [if_pos hx]
      match hr : splitOnChar c xs with
      | [] => exact absurd hr (splitOnChar_ne_nil c xs)
      | p :: ps =>
        rw [hr] at ih
        rw [hx]
        show [] ++ c :: joinWith c (p :: ps) = c :: xs
        rw [List.nil_append, ih]
    · rw [if_neg hx]
      match hr : splitOnChar c xs with
      | [] => exact absurd hr (splitOnChar_ne_nil c xs)
      | p :: ps =>
        rw [hr] at ih
        match ps, ih with
        | [], ih =>
          show x :: p = x :: xs
          rw [show joinWith c [p] = p from rfl] at ih
          rw [ih]
        | q :: qs, ih =>
          show (x :: p) ++ c :: joinWith c (q :: qs) = x :: xs
          rw [List.cons_append]
          rw [show p ++ c :: joinWith c (q :: qs) = joinWith c (p :: q :: qs) from rfl]
          rw [ih]

theorem splitOnChar_no_sep (c : Char) (p : List Char) (hp : c ∉ p) :
    splitOnChar c p = [p] := by
  induction p with
  | nil => rfl
  | cons x xs ih =>
    have hx : x ≠ c := fun h => hp (h ▸ List.mem_cons_self x xs)
    have hxs : c ∉ xs := fun h => hp (List.mem_cons_of_mem x h)
    rw [splitOnChar, if_neg hx, ih hxs]

theorem splitOnChar_sep_append (c : Char) (p r : List Char) (hp : c ∉ p) :
    splitOnChar c (p ++ c :: r) = p :: splitOnChar c r := by
  induction p with
  | nil => simp [splitOnChar]
  | cons x xs ih =>
    have hx : x ≠ c := fun h => hp (h ▸ List.mem_cons_self x xs)
    have hxs : c ∉ xs := fun h => hp (List.mem_cons_of_mem x h)
    rw [List.cons_append, splitOnChar, if_neg hx, ih hxs]

theorem splitOnChar_joinWith (c : Char) (parts : List (List Char))
    (hne : parts ≠ []) (hnc : ∀ p ∈ parts, c ∉ p) :
    splitOnChar c (joinWith c parts) = parts := by
  induction parts with
  | nil => exact absurd rfl hne
  | cons p ps ih =>
    match ps with
    | [] =>
      show splitOnChar c p = [p]
      exact splitOnChar_no_sep c p (hnc p (List.mem_cons_self p []))
    | q :: qs =>
      show splitOnChar c (p ++ c :: joinWith c (q :: qs)) = p :: q :: qs
      rw [splitOnChar_sep_append c p (joinWith c (q :: qs))
        (hnc p (List.mem_cons_self p (q :: qs)))]
      rw [ih (by simp) (fun r hr => hnc r (List.mem_cons_of_mem p hr))]


theorem digitsClose_mem (dig : Char → Bool) : ∀ (l : List Char),
    digitsClose dig l = true → ∀ x ∈ l, dig x = true ∨ x = ']'
  | [], h, _, _ => by simp [digitsClose] at h
  | [c], h, x, hx => by
    simp only [digitsClose, decide_eq_true_eq] at h
    rw [List.mem_singleton.mp hx, h]
    exact Or.inr rfl
  | c :: c2 :: cs, h, x, hx => by
    simp only [digitsClose, Bool.and_eq_true] at h
    rcases List.mem_cons.mp hx with rfl | hx2
    · exact Or.inl h.1
    · exact digitsClose_mem dig (c2 :: cs) h.2 x hx2

theorem rootOk_no_dot {r : List Char} (h : rootOk r = true) : '.' ∉ r := by
  intro hm
  simp only [rootOk, Bool.and_eq_true, List.all_eq_true] at h
  exact absurd (h.2 _ hm) (by decide)

theorem segOk_no_dot {dig : Char → Bool} (hdot : dig '.' = false)
    {s : List Char} (h : segOk dig s = true) : '.' ∉ s := by
  intro hm
  simp only [segOk, Bool.or_eq_true, Bool.and_eq_true, List.all_eq_true] at h
  rcases h with hb | ht
  · match s, hb, hm with
    | [], hb, _ => simp [bracketOk] at hb
    | [o], hb, _ => simp [bracketOk] at hb
    | o :: c :: rest, hb, hm =>
      simp only [bracketOk, Bool.and_eq_true, decide_eq_true_eq] at hb
      rcases List.mem_cons.mp hm with heq | hm2
      · rw [← heq] at hb
        exact absurd hb.1.1 (by decide)
      · rcases digitsClose_mem dig _ hb.2 _ hm2 with hd | hd
        · rw [hdot] at hd
          exact absurd hd (by decide)
        · exact absurd hd (by decide)
  · exact absurd (ht.2 _ hm) (by decide)

theorem selBody_iff (dig : Char → Bool) (hdot : dig '.' = false) (v : List Char) :
    selBody dig v = true ↔ SelGrammar dig v := by
  constructor
  · intro h
    unfold selBody at h
    match hr : splitOnChar '.' v with
    | [] => exact absurd hr (splitOnChar_ne_nil '.' v)
    | root :: segs =>
      rw [hr] at h
      simp only [Bool.and_eq_true, List.all_eq_true] at h
      refine ⟨root, segs, ?_, h.1, h.2⟩
      rw [← hr, joinWith_splitOnChar]
  · rintro ⟨root, segs, rfl, hroot, hsegs⟩
    unfold selBody
    rw [splitOnChar_joinWith '.' (root :: segs) (by simp) ?hnc]
    · simp only [Bool.and_eq_true, List.all_eq_true]
      exact ⟨hroot, hsegs⟩
    case hnc =>
      intro p hp
      rcases List.mem_cons.mp hp with rfl | hp2
      · exact rootOk_no_dot hroot
      · exact segOk_no_dot hdot (hsegs p hp2)

/-- Python's `$` allowance, abstractly: a predicate holds of `dropLast` with
the last character `c` exactly when the string is a `c`-terminated extension
of a string satisfying it. -/
theorem getLast_dropLast_iff (c : Char) (v : List Char) (P : List Char → Prop) :
    (v.getLast? = some c ∧ P v.dropLast) ↔ ∃ w, v = w ++ [c] ∧ P w := by
  constructor
  · rintro ⟨hl, hp⟩
    have hne : v ≠ [] := by
      intro h
      rw [h] at hl
      simp at hl
    refine ⟨v.dropLast, ?_, hp⟩
    have hg : v.getLast hne = c := by
      have := List.getLast?_eq_getLast v hne
      rw [hl] at this
      exact (Option.some_inj.mp this).symm
    conv_lhs => rw [← List.dropLast_append_getLast hne]
    rw [hg]
  · rintro ⟨w, rfl, hp⟩
    refine ⟨List.getLast?_concat w, ?_⟩
    rw [List.dropLast_concat]
    exact hp

theorem selMatch_iff (dig : Char → Bool) (hdot : dig '.' = false) (v : List Char) :
    selMatch dig v = true ↔ SelGrammarNL dig v := by
  unfold selMatch SelGrammarNL
  simp only [Bool.or_eq_true, Bool.and_eq_true, decide_eq_true_eq]
  apply or_congr
  · exact selBody_iff dig hdot v
  · rw [getLast_dropLast_iff '\n' v (fun w => selBody dig w = true)]
    exact exists_congr fun w => and_congr_right fun _ => selBody_iff dig hdot w

theorem refBody_iff (v : List Char) : refBody v = true ↔ RefGrammar v := by
  constructor
  · intro h
    simp only [refBody, Bool.and_eq_true, decide_eq_true_eq, ge_iff_le] at h
    obtain ⟨⟨⟨hn, htok⟩, hdd⟩, huuid⟩ := h
    refine ⟨v.take (v.length - 38), v.drop (v.length - 36), ?_, htok, huuid⟩
    have e1 := List.take_append_drop (v.length - 38) v
    have e2 := List.take_append_drop 2 (v.drop (v.length - 38))
    rw [hdd, List.drop_drop] at e2
    have e3 : v.length - 38 + 2 = v.length - 36 := by omega
    rw [e3] at e2
    rw [List.append_assoc, e2, e1]
  · rintro ⟨a, u, rfl, htok, huuid⟩
    have ha3 : 3 ≤ a.length := by
      simp only [tokenOk, Bool.and_eq_true, decide_eq_true_eq, ge_iff_le] at htok
      tauto
    have hu36 : u.length = 36 := by
      simp only [uuidCanon, hexRun, Bool.and_eq_true, decide_eq_true_eq] at huuid
      tauto
    have h1 : (a ++ dd ++ u).length = a.length + 38 := by
      simp [dd, hu36]
    have h2 : (a ++ dd ++ u).take ((a ++ dd ++ u).length - 38) = a := by
      rw [List.append_assoc]
      exact List.take_left' (by
        simp only [List.length_append, List.length_cons, List.length_nil, dd, hu36]
        omega)
    have h3 : (a ++ dd ++ u).drop ((a ++ dd ++ u).length - 38) = dd ++ u := by
      rw [List.append_assoc]
      exact List.drop_left' (by
        simp only [List.length_append, List.length_cons, List.length_nil, dd, hu36]
        omega)
    have h4 : (a ++ dd ++ u).drop ((a ++ dd ++ u).length - 36) = u := by
      exact List.drop_left' (by
        simp only [List.length_append, List.length_cons, List.length_nil, dd, hu36]
        omega)
    unfold refBody
    rw [h2, h3, h4, h1]
    simp only [Bool.and_eq_true, decide_eq_true_eq, ge_iff_le]
    refine ⟨⟨⟨by omega, htok⟩, ?_⟩, huuid⟩
    exact List.take_left' (by simp [dd])

theorem refMatch_iff (v : List Char) : refMatch v = true ↔ RefGrammarNL v := by
  unfold refMatch RefGrammarNL
  simp only [Bool.or_eq_true, Bool.and_eq_true, decide_eq_true_eq]
  apply or_congr
  · exact refBody_iff v
  · rw [getLast_dropLast_iff '\n' v (fun w => refBody w = true)]
    exact exists_congr fun w => and_congr_right fun _ => refBody_iff w


/-- C1 (counterexample): a naive `datetime` is accepted by
`TimestampProperty.validate` and returned unchanged, so the result is not
timezone-aware. -/
theorem c1_naive_datetime_counterexample :
    tsValidate (.dtv ⟨0, none⟩) = .ok ⟨0, none⟩ ∧
    (PyDatetime.mk 0 none).tz.isNone = true := ⟨rfl, rfl⟩

/-- C1 (amended): only string inputs are normalized — an aware parse is
converted to UTC and a naive parse is labeled UTC; `datetime` inputs are
returned unchanged (so naive or non-UTC datetimes pass through), and
date-only inputs get midnight with `US/Eastern` attached, not UTC. -/
theorem c1_timestamp_normalization_amended :
    (∀ w : Int, ∀ z : Tz, tsValidate (.strParsed ⟨w, some z⟩) =
      .ok ⟨w - z.offsetMin, some utcTz⟩) ∧
    (∀ w : Int, tsValidate (.strParsed ⟨w, none⟩) = .ok ⟨w, some utcTz⟩) ∧
    (∀ d : PyDatetime, tsValidate (.dtv d) = .ok d) ∧
    (∀ d : PyDate, tsValidate (.datev d) = .ok ⟨1440 * d.day, some easternTz⟩) :=
  ⟨fun _ _ => rfl, fun _ => rfl, fun _ => rfl, fun _ => rfl⟩

/-- C2 (counterexample): a `default` override supplied together with `fixed`
wins — `default()` returns the override's value, not the fixed value. -/
theorem c2_default_override_counterexample :
    (mkProperty strTruthy id false (some "x") none (some (fun _ => "y"))).defaultFn.map
      (fun g => g ()) = some "y" ∧
    (("y" : String) == "x") = false := ⟨rfl, by decide⟩

/-- C2 (amended): with a truthy `fixed`, `validate` is exact-match against
the fixed value regardless of any `clean` or `default` override; `default()`
returns the fixed value only when no `default` override is supplied — a
supplied override takes precedence. -/
theorem c2_fixed_rewiring_amended {V : Type} [DecidableEq V]
    (truthy : V → Bool) (reprV : V → String) (req : Bool) (f : V)
    (cleanOv : Option (V → Except String V)) (defaultOv : Option (Unit → V))
    (v : V) (h : truthy f = true) :
    ((mkProperty truthy reprV req (some f) cleanOv defaultOv).validate v =
      if v = f then .ok v
      else .error ("must equal " ++ sq ++ reprV f ++ sq ++ ".")) ∧
    ((mkProperty truthy reprV req (some f) cleanOv none).defaultFn.map
      (fun g => g ()) = some f) ∧
    (∀ d : Unit → V, (mkProperty truthy reprV req (some f) cleanOv (some d)).defaultFn.map
      (fun g => g ()) = some (d ())) := by
  refine ⟨?_, ?_, ?_⟩
  · show (mkProperty truthy reprV req (some f) cleanOv defaultOv).validate v = _
    unfold mkProperty
    simp only [h, if_true]
    cases defaultOv <;> rfl
  · unfold mkProperty
    simp only [h, if_true]
    rfl
  · intro d
    unfold mkProperty
    simp only [h, if_true]
    rfl

/-- Witness for C2: concrete fixed value `x` with a `default` override and a
rejected input `y`. -/
theorem c2_fixed_rewiring_amended_witness :
    ((mkProperty strTruthy id false (some "x") none (some (fun _ => "y"))).validate "y" =
      .error ("must equal " ++ sq ++ "x" ++ sq ++ ".")) ∧
    ((mkProperty strTruthy id false (some "x") none none).defaultFn.map
      (fun g => g ()) = some "x") := by
  constructor
  · rw [(c2_fixed_rewiring_amended strTruthy id false "x" none
      (some (fun _ => "y")) "y" (by decide)).1]
    rw [if_neg (by decide)]
    rfl
  · exact (c2_fixed_rewiring_amended strTruthy id false "x" none none "x"
      (by decide)).2.1


/-- C3 (code bug): `IDProperty.validate` promises a version-4 UUID in its
error message, but `uuid.UUID(..., version=4)` overwrites the version bits
instead of checking them — a well-formed version-1 UUID suffix (version
nibble `1`) is accepted. -/
theorem c3_uuid_version_not_checked :
    idValidate "foo".data "foo--2c4a1f3a-0001-11e4-9191-0800200c9a66".data =
      .ok "foo--2c4a1f3a-0001-11e4-9191-0800200c9a66".data ∧
    "2c4a1f3a-0001-11e4-9191-0800200c9a66".data.getD 14 ' ' = '1' :=
  ⟨by decide, by decide⟩

/-- C4 (counterexample): the claimed example `a.b.[0].c` is in fact rejected
by `SelectorProperty.validate` — its root segment `a` is below the 3-character
minimum of `SELECTOR_REGEX` (as the second conjunct shows, so the rejection
does not depend on the digit predicate or on the `$` newline allowance:
the input has no trailing newline and fails on its root alone). -/
theorem c4_selector_example_counterexample :
    selValidate asciiDigit "a.b.[0].c".data =
      .error ("values must adhere to selector syntax") ∧
    rootOk "a".data = false := ⟨by decide, by decide⟩

/-- C4 (amended): for the digit predicate of Python's `\d` (any predicate
that rejects `.`; Unicode decimal digits do), `validate` accepts exactly the
strings consisting of a 3-250 character `[a-z0-9_-]` root followed by zero
or more `.`-separated segments — each a bracketed digit index or a 1-250
character token — plus, by Python's `$` semantics, any such string with one
trailing newline appended; a selector whose root meets the minimum, such as
`abc.b.[0].c`, succeeds, and `ab` fails. -/
theorem c4_selector_grammar_amended (dig : Char → Bool) (hdot : dig '.' = false) :
    (∀ v : List Char, selValidate dig v = .ok v ↔ SelGrammarNL dig v) ∧
    selValidate asciiDigit "abc.b.[0].c".data = .ok "abc.b.[0].c".data ∧
    selValidate asciiDigit "ab".data =
      .error ("values must adhere to selector syntax") := by
  refine ⟨?_, by decide, by decide⟩
  intro v
  unfold selValidate
  constructor
  · intro h
    by_cases hm : selMatch dig v
    · exact (selMatch_iff dig hdot v).mp hm
    · rw [if_neg hm] at h
      exact absurd h (by simp)
  · intro hg
    rw [if_pos ((selMatch_iff dig hdot v).mpr hg)]

/-- Witness for C4: the ASCII digit predicate (on which Python's `\d`
agrees for every ASCII character) satisfies the hypothesis, the conforming
selector is accepted, and so is its trailing-newline variant. -/
theorem c4_selector_grammar_amended_witness :
    selValidate asciiDigit "abc.b.[0].c".data = .ok "abc.b.[0].c".data ∧
    selValidate asciiDigit "abc\n".data = .ok "abc\n".data := by
  constructor
  · exact (c4_selector_grammar_amended asciiDigit (by decide)).2.1
  · exact ((c4_selector_grammar_amended asciiDigit (by decide)).1
      "abc\n".data).mpr
      (Or.inr ⟨"abc".data, by decide,
        "abc".data, [], by decide, by decide, by simp⟩)

/-- C5 (counterexample): the prefix check uses `startswith(self.type)`, not
`type + "--"`: `malwareish--<uuid>` does not start with `malware--` yet is
accepted by `ReferenceProperty(type="malware").validate`. -/
theorem c5_prefix_counterexample :
    refValidate (some "malware".data)
      "malwareish--00000000-0000-4000-8000-000000000000".data =
      .ok "malwareish--00000000-0000-4000-8000-000000000000".data ∧
    pyStartswith "malwareish--00000000-0000-4000-8000-000000000000".data
      "malware--".data = false := ⟨by decide, by decide⟩

/-- C5 (amended): with a truthy target type `t`, `validate` succeeds exactly
when the value starts with `t` itself (not `t + "--"`) and lies in the
language of `REF_REGEX.match` — the grammar
`<lowercase-hyphen token>--<uuid>`, or such a string with one trailing
newline appended (Python's `$` matches before a final newline); a value that
does not start with `t` gets the prefix-mismatch error. -/
theorem c5_reference_validate_amended (t v : List Char) (ht : t.isEmpty = false) :
    (refValidate (some t) v = .ok v ↔ (pyStartswith v t = true ∧ RefGrammarNL v)) ∧
    (pyStartswith v t = false →
      refValidate (some t) v =
        .error ("must start with " ++ sq ++ String.mk t ++ sq ++ ".")) := by
  constructor
  · unfold refValidate refCheckFormat
    simp only [ht, Bool.false_eq_true, if_false]
    by_cases hs : pyStartswith v t
    · rw [if_pos hs]
      by_cases hm : refMatch v
      · rw [if_pos hm]
        constructor
        · intro _; exact ⟨hs, (refMatch_iff v).mp hm⟩
        · intro _; rfl
      · rw [if_neg hm]
        constructor
        · intro h; exact absurd h (by simp)
        · rintro ⟨-, hg⟩; exact absurd ((refMatch_iff v).mpr hg) hm
    · rw [if_neg hs]
      constructor
      · intro h; exact absurd h (by simp)
      · rintro ⟨h1, -⟩; exact absurd h1 hs
  · intro hs
    unfold refValidate
    simp only [ht, Bool.false_eq_true, if_false, hs]

/-- Witness for C5: the `malware`-typed reference property accepts
`malware--<uuid>`, accepts its trailing-newline variant (Python `$`), and
rejects `campaign--<uuid>` with the prefix error. -/
theorem c5_reference_validate_amended_witness :
    refValidate (some "malware".data)
      "malware--00000000-0000-4000-8000-000000000000".data =
      .ok "malware--00000000-0000-4000-8000-000000000000".data ∧
    refValidate (some "malware".data)
      "malware--00000000-0000-4000-8000-000000000000\n".data =
      .ok "malware--00000000-0000-4000-8000-000000000000\n".data ∧
    refValidate (some "malware".data)
      "campaign--00000000-0000-4000-8000-000000000000".data =
      .error ("must start with " ++ sq ++ String.mk "malware".data ++ sq ++ ".") := by
  refine ⟨?_, ?_, ?_⟩
  · exact (c5_reference_validate_amended "malware".data
      "malware--00000000-0000-4000-8000-000000000000".data (by decide)).1.mpr
      ⟨by decide, Or.inl ⟨"malware".data,
        "00000000-0000-4000-8000-000000000000".data,
        by decide, by decide, by decide⟩⟩
  · exact (c5_reference_validate_amended "malware".data
      "malware--00000000-0000-4000-8000-000000000000\n".data (by decide)).1.mpr
      ⟨by decide, Or.inr ⟨"malware--00000000-0000-4000-8000-000000000000".data,
        by decide, ⟨"malware".data,
          "00000000-0000-4000-8000-000000000000".data,
          by decide, by decide, by decide⟩⟩⟩
  · exact (c5_reference_validate_amended "malware".data
      "campaign--00000000-0000-4000-8000-000000000000".data (by decide)).2
      (by decide)


/-- C6 (confirmed): a date-only input is combined with midnight and returned
with the fixed non-UTC reference zone `US/Eastern` attached. -/
theorem c6_date_only_eastern (d : PyDate) :
    tsValidate (.datev d) = .ok ⟨1440 * d.day, some easternTz⟩ ∧
    (1440 * d.day) % 1440 = 0 ∧
    easternTz.name = "US/Eastern" ∧
    decide (easternTz = utcTz) = false :=
  ⟨rfl, Int.mul_emod_right 1440 d.day, rfl, by decide⟩

/-- C7 (counterexample): `a--b` is a legitimate type token by the repo's own
`REF_REGEX` grammar, yet the identifier produced by `IDProperty("a--b").default()`
fails that property's own validation, because `split('--', 1)` cuts at the
first `--` inside the token. -/
theorem c7_double_dash_token_counterexample :
    tokenOk "a--b".data = true ∧
    idValidate "a--b".data (idDefault "a--b".data uuid4Sample) =
      .error ("must have a valid version 4 UUID after the prefix.") :=
  ⟨by decide, by decide⟩

/-- C7 (amended): for every type token that does not itself contain the `--`
separator, the identifier produced by `default()` has the form
`<type>--<uuid4>` and is accepted unchanged by the same property's
`validate`. -/
theorem c7_id_default_roundtrip_amended (t : List Char) (u : Uuid4)
    (h : splitOnce dd t = none) :
    idDefault t u = t ++ dd ++ uuidRender u.hex ∧
    idValidate t (idDefault t u) = .ok (idDefault t u) :=
  ⟨rfl, idValidate_idDefault t u h⟩

/-- Witness for C7: the `example` type token round-trips concretely. -/
theorem c7_id_default_roundtrip_amended_witness :
    idValidate "example".data (idDefault "example".data uuid4Sample) =
      .ok (idDefault "example".data uuid4Sample) :=
  (c7_id_default_roundtrip_amended "example".data uuid4Sample (by decide)).2

/-- C8 (confirmed): `ListProperty.validate` rejects non-iterables, fails with
`must not be empty.` on an empty iterable, never returns an empty list, and
`ListProperty(StringProperty).validate(["a","b"])` returns `["a","b"]`. -/
theorem c8_list_nonempty :
    (∀ (V : Type) (c : ElemValidator V),
      listValidate c none = .error ("must be an iterable.")) ∧
    (∀ (V : Type) (c : ElemValidator V),
      listValidate c (some []) = .error ("must not be empty.")) ∧
    (∀ (V : Type) (c : ElemValidator V) (xs r : List V),
      listValidate c (some xs) = .ok r → 0 < r.length) ∧
    listValidate strContained (some ["a", "b"]) = .ok ["a", "b"] := by
  refine ⟨fun V c => rfl, fun V c => rfl, ?_, by decide⟩
  intro V c xs r h
  have h2 : (match listValidateAux c xs with
      | Except.error e => Except.error e
      | Except.ok result =>
        if result.length < 1 then Except.error ("must not be empty.")
        else Except.ok result) = Except.ok r := h
  cases haux : listValidateAux c xs with
  | error e => rw [haux] at h2; exact absurd h2 (by simp)
  | ok res =>
    rw [haux] at h2
    have h3 : (if res.length < 1 then Except.error ("must not be empty.")
        else Except.ok res) = Except.ok r := h2
    by_cases hlen : res.length < 1
    · rw [if_pos hlen] at h3; exact absurd h3 (by simp)
    · rw [if_neg hlen] at h3
      have hres : res = r := by simpa using h3
      rw [← hres]
      omega

/-- Witness for C8. -/
theorem c8_list_nonempty_witness : 0 < (["a", "b"] : List String).length :=
  c8_list_nonempty.2.2.1 String strContained ["a", "b"] ["a", "b"] (by decide)

/-- C9 (confirmed): boolean coercion accepts the documented truthy and falsy
forms (string matching case-insensitive) and re-frames the failure message. -/
theorem c9_boolean_validate :
    boolValidate (.pybool true) = .ok true ∧
    boolValidate (.pystr "true".data) = .ok true ∧
    boolValidate (.pystr "T".data) = .ok true ∧
    boolValidate (.pyint 1) = .ok true ∧
    boolValidate (.pybool false) = .ok false ∧
    boolValidate (.pystr "false".data) = .ok false ∧
    boolValidate (.pystr "f".data) = .ok false ∧
    boolValidate (.pyint 0) = .ok false ∧
    boolValidate (.pystr "maybe".data) = .error ("must be a boolean value.") ∧
    boolClean (.pystr "maybe".data) = .error ("not a coercible boolean value.") := by
  refine ⟨rfl, by decide, by decide, rfl, rfl, by decide, by decide, rfl, by decide, by decide⟩

/-- C10 (confirmed): the numeric branch is reached only after the string
branch raises `AttributeError`, and compares by equality: the strings `"1"`
and `"0"` are rejected, while the floats `1.0` and `0.0` are accepted. -/
theorem c10_boolean_numeric_by_equality :
    boolValidate (.pystr "1".data) = .error ("must be a boolean value.") ∧
    boolClean (.pystr "1".data) = .error ("not a coercible boolean value.") ∧
    boolValidate (.pystr "0".data) = .error ("must be a boolean value.") ∧
    boolValidate (.pyfloat 1) = .ok true ∧
    boolValidate (.pyfloat 0) = .ok false :=
  ⟨by decide, by decide, by decide, by decide, by decide⟩

end Stix2
